import Mathlib

set_option synthInstance.maxSize 1000

/-!
Verification of the ReGraph rewriting-rule core: a shallow embedding of
`regraph/rules.py` (the `Rule` span of graphs with its edit operations) and of
the propagation / typing layer of `regraph/neo4j/hierarchy.py`, together with
theorems settling the specification claims.

Graphs are attributed multigraphs: nodes and edges carry dictionaries from
string keys to finite sets of scalar values (modelled as duplicate-free
lists).  Python dictionaries are modelled as insertion-ordered association
lists; Python exceptions are modelled by an explicit result type that records
the state of the object at the moment the exception is raised (mutations
performed before the raise are retained, as in Python).
-/

namespace ReGraph

/-- Primitive scalar attribute values: booleans, integers and strings (§3 of
the specification). -/
inductive Scalar where
  | boolVal : Bool → Scalar
  | intVal : Int → Scalar
  | strVal : String → Scalar
deriving DecidableEq

/-- Attribute dictionary: key to set of scalars; the set is carried as a
list, compared with set semantics by the operations below. -/
abbrev Attrs := List (String × List Scalar)

/-- Set union of two scalar sets (lists as sets, left-biased order). -/
def unionVals (xs ys : List Scalar) : List Scalar :=
  xs ++ ys.filter (fun y => !(xs.contains y))

/-- Set difference of two scalar sets. -/
def diffVals (xs ys : List Scalar) : List Scalar :=
  xs.filter (fun x => !(ys.contains x))

/-- Set inclusion of two scalar sets. -/
def subsetVals (xs ys : List Scalar) : Bool :=
  xs.all (fun x => ys.contains x)

/-- Modelled from the spec (§4.A, `regraph.primitives` attribute algebra is
not under src/): pointwise union of attribute dictionaries. -/
def unionAttrs (a b : Attrs) : Attrs :=
  b.foldl (fun acc kv =>
    if acc.any (fun kw => kw.1 == kv.1) then
      acc.map (fun kw => if kw.1 == kv.1 then (kw.1, unionVals kw.2 kv.2) else kw)
    else acc ++ [kv]) a

/-- Modelled from the spec (§4.A): pointwise set difference of attribute
dictionaries; keys of `a` are kept (possibly with an empty value set),
matching the observed Python behaviour of `remove_node_attrs`. -/
def diffAttrs (a b : Attrs) : Attrs :=
  a.map (fun kv =>
    match b.lookup kv.1 with
    | some ws => (kv.1, diffVals kv.2 ws)
    | none => kv)

/-- Modelled from the spec (§3): pointwise inclusion of attribute
dictionaries, a missing key standing for the empty set. -/
def subsetAttrs (a b : Attrs) : Bool :=
  a.all (fun kv =>
    match b.lookup kv.1 with
    | some ws => subsetVals kv.2 ws
    | none => kv.2.isEmpty)

/-- Attribute dictionary of an optional attribute store (`None` in Python is
read as the empty dictionary where the code would union into it). -/
def optAttrs (a : Option Attrs) : Attrs := a.getD []

/-- Attributed graph: node list (id with optional attribute dictionary —
`none` models a Python `None` assigned by `update_node_attrs`), edge list of
ordered (src, tgt) pairs with optional attributes, and a directedness flag
(§3).  An undirected edge is stored once, under an arbitrary orientation,
exactly as in networkx 1.x where `(u, v) in g.edges()` is
orientation-sensitive. -/
structure Graph where
  nodes : List (String × Option Attrs)
  edges : List (String × String × Option Attrs)
  directed : Bool
deriving DecidableEq

/-- Python `n in g.nodes()`. -/
def Graph.hasNode (g : Graph) (n : String) : Bool :=
  g.nodes.any (fun x => x.1 == n)

/-- Attribute dictionary stored at a node (if the node exists). -/
def Graph.nodeAttrs (g : Graph) (n : String) : Option Attrs :=
  match g.nodes.lookup n with
  | some a => a
  | none => none

/-- Python `(u, v) in g.edges()`: membership of the ordered pair in the
stored edge list (orientation-sensitive, as in networkx 1.x). -/
def Graph.edgeMem (g : Graph) (u v : String) : Bool :=
  g.edges.any (fun e => e.1 == u && e.2.1 == v)

/-- Attribute dictionary stored at an edge; for an undirected graph the
stored orientation may be either one. -/
def Graph.edgeAttrs (g : Graph) (u v : String) : Option Attrs :=
  match g.edges.find? (fun e => e.1 == u && e.2.1 == v) with
  | some e => e.2.2
  | none =>
    if g.directed then none
    else
      match g.edges.find? (fun e => e.1 == v && e.2.1 == u) with
      | some e => e.2.2
      | none => none

/-- Modelled from the spec (§6, `regraph.primitives.add_node` is not under
src/): add a fresh node with (normalized) attributes; a no-op on an existing
node (every call site in rules.py guards on freshness). -/
def addNodePrim (g : Graph) (n : String) (attrs : Attrs) : Graph :=
  if g.hasNode n then g
  else { g with nodes := g.nodes ++ [(n, some attrs)] }

/-- Modelled from the spec (§6): remove a node together with all its
incident edges. -/
def removeNodePrim (g : Graph) (n : String) : Graph :=
  { g with
      nodes := g.nodes.filter (fun x => !(x.1 == n)),
      edges := g.edges.filter (fun e => !(e.1 == n) && !(e.2.1 == n)) }

/-- Modelled from the spec (§6): add an edge between existing endpoints; a
no-op when the edge is already present (call sites in rules.py guard on
absence). -/
def addEdgePrim (g : Graph) (u v : String) (attrs : Attrs) : Graph :=
  if (if g.directed then g.edgeMem u v else g.edgeMem u v || g.edgeMem v u) then g
  else { g with edges := g.edges ++ [(u, v, some attrs)] }

/-- Modelled from the spec (§6): remove an edge; on an undirected graph
either stored orientation is removed. -/
def removeEdgePrim (g : Graph) (u v : String) : Graph :=
  if g.directed then
    { g with edges := g.edges.filter (fun e => !(e.1 == u && e.2.1 == v)) }
  else
    { g with edges :=
        g.edges.filter (fun e => !((e.1 == u && e.2.1 == v) || (e.1 == v && e.2.1 == u))) }

/-- Modelled from the spec (§4.B): union new attributes into a node. -/
def addNodeAttrsPrim (g : Graph) (n : String) (attrs : Attrs) : Graph :=
  { g with nodes := g.nodes.map (fun x =>
      if x.1 == n then (x.1, some (unionAttrs (optAttrs x.2) attrs)) else x) }

/-- Modelled from the spec (§4.B): remove attribute values from a node by
pointwise set difference. -/
def removeNodeAttrsPrim (g : Graph) (n : String) (attrs : Attrs) : Graph :=
  { g with nodes := g.nodes.map (fun x =>
      if x.1 == n then (x.1, some (diffAttrs (optAttrs x.2) attrs)) else x) }

/-- Modelled from the spec (§4.B): replace the attribute dictionary of a
node. -/
def updateNodeAttrsPrim (g : Graph) (n : String) (attrs : Attrs) : Graph :=
  { g with nodes := g.nodes.map (fun x =>
      if x.1 == n then (x.1, some attrs) else x) }

/-- Python `g.node[n] = None` (direct dictionary assignment in
`update_node_attrs`): sets the stored attribute dictionary to `None`, adding
a bare entry when the key is absent, as dictionary assignment would. -/
def setNodeAttrsNone (g : Graph) (n : String) : Graph :=
  if g.hasNode n then
    { g with nodes := g.nodes.map (fun x => if x.1 == n then (x.1, none) else x) }
  else { g with nodes := g.nodes ++ [(n, none)] }

/-- Whether a stored edge matches the (u, v) pair, up to orientation for
undirected graphs. -/
def edgeKeyMatch (g : Graph) (u v : String) (e : String × String × Option Attrs) : Bool :=
  (e.1 == u && e.2.1 == v) || (!g.directed && e.1 == v && e.2.1 == u)

/-- Modelled from the spec (§4.B): union new attributes into an edge. -/
def addEdgeAttrsPrim (g : Graph) (u v : String) (attrs : Attrs) : Graph :=
  { g with edges := g.edges.map (fun e =>
      if edgeKeyMatch g u v e then (e.1, e.2.1, some (unionAttrs (optAttrs e.2.2) attrs))
      else e) }

/-- Modelled from the spec (§4.B): remove attribute values from an edge by
pointwise set difference. -/
def removeEdgeAttrsPrim (g : Graph) (u v : String) (attrs : Attrs) : Graph :=
  { g with edges := g.edges.map (fun e =>
      if edgeKeyMatch g u v e then (e.1, e.2.1, some (diffAttrs (optAttrs e.2.2) attrs))
      else e) }

/-- Modelled from the spec (§4.B): replace the attribute dictionary of an
edge. -/
def updateEdgeAttrsPrim (g : Graph) (u v : String) (attrs : Attrs) : Graph :=
  { g with edges := g.edges.map (fun e =>
      if edgeKeyMatch g u v e then (e.1, e.2.1, some attrs) else e) }

/-- Python `g.edge[u][v] = None` (direct assignment in `update_edge_attrs`):
sets the stored edge attributes to `None`, adding the adjacency entry when
absent, as dictionary assignment would. -/
def setEdgeAttrsNone (g : Graph) (u v : String) : Graph :=
  if g.edges.any (fun e => edgeKeyMatch g u v e) then
    { g with edges := g.edges.map (fun e =>
        if edgeKeyMatch g u v e then (e.1, e.2.1, none) else e) }
  else { g with edges := g.edges ++ [(u, v, none)] }

/-- Name generator for clones.  Modelled from the spec (§4.B,
`regraph.primitives.clone_node` is not under src/): the fresh id is the
cloned id with the least numeric suffix avoiding a collision. -/
def freshCloneName (g : Graph) (base : String) : String :=
  match (List.range (g.nodes.length + 1)).find?
      (fun i => !(g.hasNode (base ++ toString (i + 1)))) with
  | some i => base ++ toString (i + 1)
  | none => base ++ "copy"

/-- Modelled from the spec (§4.B): clone a node, duplicating its attributes
and its incident edges (with the clone substituted for the original
endpoint); returns the updated graph and the fresh id. -/
def cloneNodePrim (g : Graph) (n : String) : Graph × String :=
  let fresh := freshCloneName g n
  let subst := fun x => if x == n then fresh else x
  let dupEdges := (g.edges.filter (fun e => e.1 == n || e.2.1 == n)).map
      (fun e => (subst e.1, subst e.2.1, e.2.2))
  ({ g with
      nodes := g.nodes ++ [(fresh, g.nodeAttrs n)],
      edges := g.edges ++ dupEdges }, fresh)

/-- Insert an edge into an accumulated edge list, unioning attributes when
the ordered pair is already present (used by node merging). -/
def insertEdgeUnion (es : List (String × String × Option Attrs))
    (e : String × String × Option Attrs) : List (String × String × Option Attrs) :=
  if es.any (fun x => x.1 == e.1 && x.2.1 == e.2.1) then
    es.map (fun x =>
      if x.1 == e.1 && x.2.1 == e.2.1 then
        (x.1, x.2.1, some (unionAttrs (optAttrs x.2.2) (optAttrs e.2.2)))
      else x)
  else es ++ [e]

/-- Modelled from the spec (§4.B, `regraph.primitives.merge_nodes` is not
under src/): merge a list of nodes into one node carrying the union of the
members' attributes; incident edges are redirected to the merged node, with
attributes unioned when redirection makes two edges coincide.  The merged
id is the supplied name, or the member ids joined by an underscore.  An
empty member list leaves the graph unchanged. -/
def mergeNodesPrim (g : Graph) (ns : List String) (name : Option String) :
    Graph × String :=
  match ns with
  | [] => (g, name.getD "")
  | _ =>
    let newName := name.getD (String.intercalate "_" ns)
    let isMember := fun x => ns.contains x
    let mergedAttrs := ns.foldl (fun acc n => unionAttrs acc (optAttrs (g.nodeAttrs n))) []
    let subst := fun x => if isMember x then newName else x
    let newEdges := g.edges.foldl (fun acc e =>
        if isMember e.1 || isMember e.2.1 then
          insertEdgeUnion acc (subst e.1, subst e.2.1, e.2.2)
        else acc ++ [(e.1, e.2.1, e.2.2)]) []
    ({ g with
        nodes := g.nodes.filter (fun x => !(isMember x.1)) ++ [(newName, some mergedAttrs)],
        edges := newEdges }, newName)

/-- Modelled from the spec (`regraph.utils.keys_by_value` is not under
src/): the keys of a dictionary mapped to the given value, in insertion
order. -/
def keysByValue (d : List (String × String)) (v : String) : List String :=
  (d.filter (fun kv => kv.2 == v)).map (fun kv => kv.1)

/-- Python dictionary assignment `d[k] = v`: update in place, or append. -/
def dictSet (d : List (String × String)) (k v : String) : List (String × String) :=
  if d.any (fun kv => kv.1 == k) then
    d.map (fun kv => if kv.1 == k then (kv.1, v) else kv)
  else d ++ [(k, v)]

/-- Python `del d[k]` on a key known to be present. -/
def dictDel (d : List (String × String)) (k : String) : List (String × String) :=
  d.filter (fun kv => !(kv.1 == k))

/-- Kinds of Python exceptions raised by the embedded code (§7). -/
inductive ErrKind where
  | ruleError
  | keyError
  | graphError
  | invalidHomomorphism
  | hierarchyError
deriving DecidableEq

/-- Result of a mutating method call: either a normal return or an
exception.  In both cases the state of the object after the call is
carried — in Python, mutations performed before a raise are retained. -/
inductive OpResult (σ : Type) where
  | ok (s : σ)
  | err (k : ErrKind) (s : σ)
deriving DecidableEq

/-- The object state after the call, whether or not it raised. -/
def OpResult.state {σ : Type} : OpResult σ → σ
  | .ok s => s
  | .err _ s => s

/-- Whether the call returned normally. -/
def OpResult.isOk {σ : Type} : OpResult σ → Bool
  | .ok _ => true
  | .err _ _ => false

/-- Whether the call raised a RuleError. -/
def OpResult.isRuleError {σ : Type} : OpResult σ → Bool
  | .err .ruleError _ => true
  | _ => false

/-- A rewriting rule: the span lhs ← p → rhs with the two homomorphisms as
node maps (`regraph/rules.py`, class Rule). -/
structure Rule where
  p : Graph
  lhs : Graph
  rhs : Graph
  p_lhs : List (String × String)
  p_rhs : List (String × String)
deriving DecidableEq

/-- The check loop of `Rule.add_node` (rules.py lines 172-180): for each
P-node mapped by p_rhs onto the new id, raise RuleError when its p_lhs
image equals the new id (reading `p_lhs[k]` raises KeyError when the entry
is missing). -/
def addNodeCheckLoop (p_lhs : List (String × String)) (node_id : String) :
    List String → Option ErrKind
  | [] => none
  | k :: ks =>
    match p_lhs.lookup k with
    | none => some .keyError
    | some lhs_key =>
      if lhs_key == node_id then some .ruleError
      else addNodeCheckLoop p_lhs node_id ks

/-- Transcription of `Rule.add_node` (rules.py lines 169-186). -/
def Rule.add_node (r : Rule) (node_id : String) (attrs : Attrs) : OpResult Rule :=
  if !(r.rhs.hasNode node_id) then
    match addNodeCheckLoop r.p_lhs node_id (keysByValue r.p_rhs node_id) with
    | some k => .err k r
    | none => .ok { r with rhs := addNodePrim r.rhs node_id attrs }
  else .err .ruleError r

/-- A Python for-loop over keys mutating the rule: run the step on each
element in turn; when an iteration raises, the loop aborts with the state
at the raise. -/
def iterLoop (step : Rule → String → OpResult Rule) (r : Rule) :
    List String → OpResult Rule
  | [] => .ok r
  | k :: ks =>
    match step r k with
    | .ok r1 => iterLoop step r1 ks
    | e => e

/-- The loop body of `Rule.remove_node` (rules.py lines 198-207), run on
each P-preimage of the removed lhs node.  Order of effects for a preimage
k: remove k from p when present; read `p_rhs[k]` (KeyError when the entry
was already dropped by an earlier iteration); when its image is still an
rhs node, remove that rhs node and drop every p_rhs entry mapping onto it;
finally drop the p_lhs entry of k. -/
def removeNodeStep (r : Rule) (k : String) : OpResult Rule :=
  let r1 := if r.p.hasNode k then { r with p := removeNodePrim r.p k } else r
  match r1.p_rhs.lookup k with
  | none => .err .keyError r1
  | some rk =>
    let r2 :=
      if r1.rhs.hasNode rk then
        { r1 with
            rhs := removeNodePrim r1.rhs rk,
            p_rhs := (keysByValue r1.p_rhs rk).foldl (fun d node => dictDel d node) r1.p_rhs }
      else r1
    .ok { r2 with p_lhs := dictDel r2.p_lhs k }

/-- Transcription of `Rule.remove_node` (rules.py lines 195-208). -/
def Rule.remove_node (r : Rule) (n : String) : OpResult Rule :=
  iterLoop removeNodeStep r (keysByValue r.p_lhs n)

/-- Inner step of `Rule.add_edge` (rules.py lines 224-245) for a fixed
preimage k1 of n1 and one preimage k2 of n2: check k2 is a p node, read the
p_rhs images, raise RuleError when the rhs edge already exists (checking
both orientations on an undirected rhs), otherwise add it. -/
def addEdgeInnerStep (k1 : String) (attrs : Attrs) (r : Rule) (k2 : String) :
    OpResult Rule :=
  if !(r.p.hasNode k2) then .err .ruleError r
  else
    match r.p_rhs.lookup k1, r.p_rhs.lookup k2 with
    | some rk1, some rk2 =>
      if r.rhs.directed then
        if r.rhs.edgeMem rk1 rk2 then .err .ruleError r
        else .ok { r with rhs := addEdgePrim r.rhs rk1 rk2 attrs }
      else
        if r.rhs.edgeMem rk1 rk2 || r.rhs.edgeMem rk2 rk1 then .err .ruleError r
        else .ok { r with rhs := addEdgePrim r.rhs rk1 rk2 attrs }
    | _, _ => .err .keyError r

/-- Outer step of `Rule.add_edge` (rules.py lines 219-245) for one preimage
k1 of n1: check k1 is a p node, then run the inner loop over the preimages
of n2. -/
def addEdgeOuterStep (attrs : Attrs) (pKeys2 : List String) (r : Rule)
    (k1 : String) : OpResult Rule :=
  if !(r.p.hasNode k1) then .err .ruleError r
  else iterLoop (addEdgeInnerStep k1 attrs) r pKeys2

/-- Transcription of `Rule.add_edge` (rules.py lines 213-246). -/
def Rule.add_edge (r : Rule) (n1 n2 : String) (attrs : Attrs) : OpResult Rule :=
  iterLoop (addEdgeOuterStep attrs (keysByValue r.p_lhs n2)) r (keysByValue r.p_lhs n1)

/-- Inner step of `Rule.remove_edge` (rules.py lines 270-302) for a fixed
preimage k1 of n1 and one preimage k2 of n2: check k2 is a p node, read the
p_rhs images, then branch on the directedness of p.  Directed (lines
277-289): require the edge in p and its image in rhs, then remove both.
Undirected (lines 290-302): require the edge in p and its image in rhs up
to orientation, then remove the edge from p only — the rhs edge is left in
place. -/
def removeEdgeInnerStep (k1 : String) (r : Rule) (k2 : String) : OpResult Rule :=
  if !(r.p.hasNode k2) then .err .ruleError r
  else
    match r.p_rhs.lookup k1, r.p_rhs.lookup k2 with
    | some rk1, some rk2 =>
      if r.p.directed then
        if !(r.p.edgeMem k1 k2) then .err .ruleError r
        else if !(r.rhs.edgeMem rk1 rk2) then .err .ruleError r
        else
          .ok { r with p := removeEdgePrim r.p k1 k2, rhs := removeEdgePrim r.rhs rk1 rk2 }
      else
        if !(r.p.edgeMem k1 k2) && !(r.p.edgeMem k2 k1) then .err .ruleError r
        else if !(r.rhs.edgeMem rk1 rk2) && !(r.rhs.edgeMem rk2 rk1) then .err .ruleError r
        else .ok { r with p := removeEdgePrim r.p k1 k2 }
    | _, _ => .err .keyError r

/-- Outer step of `Rule.remove_edge` (rules.py lines 265-302). -/
def removeEdgeOuterStep (pKeys2 : List String) (r : Rule) (k1 : String) :
    OpResult Rule :=
  if !(r.p.hasNode k1) then .err .ruleError r
  else iterLoop (removeEdgeInnerStep k1) r pKeys2

/-- Transcription of `Rule.remove_edge` (rules.py lines 258-303). -/
def Rule.remove_edge (r : Rule) (n1 n2 : String) : OpResult Rule :=
  iterLoop (removeEdgeOuterStep (keysByValue r.p_lhs n2)) r (keysByValue r.p_lhs n1)

/-- The loop body of `Rule.clone_node` (rules.py lines 328-336) for one
P-preimage k of the cloned lhs node n: clone k inside p, clone the p_rhs
image of k inside rhs (reading `p_rhs[k]` raises KeyError when missing),
and register the new P-node with p_lhs mapping to n and p_rhs to the rhs
clone.  The optional node-name argument of `clone_node` is never passed to
the primitives (the source ignores it). -/
def cloneNodeStep (n : String) (r : Rule) (k : String) : OpResult Rule :=
  let pc := cloneNodePrim r.p k
  match r.p_rhs.lookup k with
  | none => .err .keyError { r with p := pc.1 }
  | some rk =>
    let rc := cloneNodePrim r.rhs rk
    .ok { r with
            p := pc.1,
            rhs := rc.1,
            p_lhs := dictSet r.p_lhs pc.2 n,
            p_rhs := dictSet r.p_rhs pc.2 rc.2 }

/-- Transcription of `Rule.clone_node` (rules.py lines 323-337). -/
def Rule.clone_node (r : Rule) (n : String) : OpResult Rule :=
  iterLoop (cloneNodeStep n) r (keysByValue r.p_lhs n)

/-- Validation loop of `Rule.merge_nodes` (rules.py lines 357-368): walk
the preimage pairs checking membership in p, collecting the p_rhs images
to merge (a Python set, modelled as an insertion-ordered duplicate-free
list).  No rule state is mutated by this phase. -/
def mergeCollectInner (r : Rule) (k1 : String) (acc : List String) :
    List String → Except ErrKind (List String)
  | [] => .ok acc
  | k2 :: ks =>
    if !(r.p.hasNode k2) then .error .ruleError
    else
      match r.p_rhs.lookup k1, r.p_rhs.lookup k2 with
      | some rk1, some rk2 =>
        let acc1 := if acc.contains rk1 then acc else acc ++ [rk1]
        let acc2 := if acc1.contains rk2 then acc1 else acc1 ++ [rk2]
        mergeCollectInner r k1 acc2 ks
      | _, _ => .error .keyError

/-- Outer validation loop of `Rule.merge_nodes`. -/
def mergeCollectOuter (r : Rule) (pKeys2 : List String) (acc : List String) :
    List String → Except ErrKind (List String)
  | [] => .ok acc
  | k1 :: ks =>
    if !(r.p.hasNode k1) then .error .ruleError
    else
      match mergeCollectInner r k1 acc pKeys2 with
      | .ok acc1 => mergeCollectOuter r pKeys2 acc1 ks
      | .error e => .error e

/-- Transcription of `Rule.merge_nodes` (rules.py lines 349-379): validate
and collect the rhs nodes to merge, merge them in rhs, then point the p_rhs
entries of every preimage of n1 and n2 at the merged node. -/
def Rule.merge_nodes (r : Rule) (n1 n2 : String) (nodeName : Option String) :
    OpResult Rule :=
  let pKeys1 := keysByValue r.p_lhs n1
  let pKeys2 := keysByValue r.p_lhs n2
  match mergeCollectOuter r pKeys2 [] pKeys1 with
  | .error e => .err e r
  | .ok nodesToMerge =>
    let merged := mergeNodesPrim r.rhs nodesToMerge nodeName
    .ok { r with
            rhs := merged.1,
            p_rhs := (pKeys1 ++ pKeys2).foldl (fun d k => dictSet d k merged.2) r.p_rhs }

/-- Loop body of `Rule.add_node_attrs` (rules.py lines 393-394): union the
attributes into the rhs image of the preimage k (reading `p_rhs[k]` raises
KeyError when missing). -/
def addNodeAttrsStep (attrs : Attrs) (r : Rule) (k : String) : OpResult Rule :=
  match r.p_rhs.lookup k with
  | none => .err .keyError r
  | some rk => .ok { r with rhs := addNodeAttrsPrim r.rhs rk attrs }

/-- Transcription of `Rule.add_node_attrs` (rules.py lines 386-395). -/
def Rule.add_node_attrs (r : Rule) (n : String) (attrs : Attrs) : OpResult Rule :=
  if !(r.lhs.hasNode n) then .err .ruleError r
  else if (keysByValue r.p_lhs n).isEmpty then .err .ruleError r
  else iterLoop (addNodeAttrsStep attrs) r (keysByValue r.p_lhs n)

/-- Loop body of `Rule.remove_node_attrs` (rules.py lines 417-419): remove
the attributes from the preimage k in p, then (reading `p_rhs[k]`, which
raises KeyError when missing) from its rhs image. -/
def removeNodeAttrsStep (attrs : Attrs) (r : Rule) (k : String) : OpResult Rule :=
  let r1 := { r with p := removeNodeAttrsPrim r.p k attrs }
  match r1.p_rhs.lookup k with
  | none => .err .keyError r1
  | some rk => .ok { r1 with rhs := removeNodeAttrsPrim r1.rhs rk attrs }

/-- Transcription of `Rule.remove_node_attrs` (rules.py lines 406-420). -/
def Rule.remove_node_attrs (r : Rule) (n : String) (attrs : Attrs) : OpResult Rule :=
  if !(r.lhs.hasNode n) then .err .ruleError r
  else if (keysByValue r.p_lhs n).isEmpty then .err .ruleError r
  else iterLoop (removeNodeAttrsStep attrs) r (keysByValue r.p_lhs n)

/-- Loop body of `Rule.update_node_attrs` (rules.py lines 432-434): assign
`p.node[k] = None`, then replace the attributes of the rhs image of k. -/
def updateNodeAttrsStep (attrs : Attrs) (r : Rule) (k : String) : OpResult Rule :=
  let r1 := { r with p := setNodeAttrsNone r.p k }
  match r1.p_rhs.lookup k with
  | none => .err .keyError r1
  | some rk => .ok { r1 with rhs := updateNodeAttrsPrim r1.rhs rk attrs }

/-- Transcription of `Rule.update_node_attrs` (rules.py lines 422-435). -/
def Rule.update_node_attrs (r : Rule) (n : String) (attrs : Attrs) : OpResult Rule :=
  if !(r.lhs.hasNode n) then .err .ruleError r
  else if (keysByValue r.p_lhs n).isEmpty then .err .ruleError r
  else iterLoop (updateNodeAttrsStep attrs) r (keysByValue r.p_lhs n)

/-- The common up-front checks of the three edge-attribute operations
(rules.py lines 438-468 and their twins): both endpoints must be lhs nodes,
the edge must exist in lhs (in either orientation when lhs is undirected),
and neither endpoint may be deleted by the rule. -/
def edgeAttrsChecks (r : Rule) (n1 n2 : String) : Bool :=
  r.lhs.hasNode n1 && r.lhs.hasNode n2 &&
  (if r.lhs.directed then r.lhs.edgeMem n1 n2
   else r.lhs.edgeMem n1 n2 || r.lhs.edgeMem n2 n1) &&
  !(keysByValue r.p_lhs n1).isEmpty && !(keysByValue r.p_lhs n2).isEmpty

/-- Inner loop body of `Rule.add_edge_attrs` (rules.py lines 469-476):
union the attributes into the rhs image edge of the pair (k1, k2). -/
def addEdgeAttrsInnerStep (k1 : String) (attrs : Attrs) (r : Rule) (k2 : String) :
    OpResult Rule :=
  match r.p_rhs.lookup k1, r.p_rhs.lookup k2 with
  | some rk1, some rk2 => .ok { r with rhs := addEdgeAttrsPrim r.rhs rk1 rk2 attrs }
  | _, _ => .err .keyError r

/-- Outer loop body of `Rule.add_edge_attrs`. -/
def addEdgeAttrsOuterStep (attrs : Attrs) (pKeys2 : List String) (r : Rule)
    (k1 : String) : OpResult Rule :=
  iterLoop (addEdgeAttrsInnerStep k1 attrs) r pKeys2

/-- Transcription of `Rule.add_edge_attrs` (rules.py lines 437-506). -/
def Rule.add_edge_attrs (r : Rule) (n1 n2 : String) (attrs : Attrs) : OpResult Rule :=
  if !(edgeAttrsChecks r n1 n2) then .err .ruleError r
  else iterLoop (addEdgeAttrsOuterStep attrs (keysByValue r.p_lhs n2)) r
    (keysByValue r.p_lhs n1)

/-- Inner loop body of `Rule.remove_edge_attrs` (rules.py lines 539-547 and
568-581): remove the attributes from the p edge (k1, k2), then from its
rhs image edge. -/
def removeEdgeAttrsInnerStep (k1 : String) (attrs : Attrs) (r : Rule) (k2 : String) :
    OpResult Rule :=
  let r1 := { r with p := removeEdgeAttrsPrim r.p k1 k2 attrs }
  match r1.p_rhs.lookup k1, r1.p_rhs.lookup k2 with
  | some rk1, some rk2 => .ok { r1 with rhs := removeEdgeAttrsPrim r1.rhs rk1 rk2 attrs }
  | _, _ => .err .keyError r1

/-- Outer loop body of `Rule.remove_edge_attrs`. -/
def removeEdgeAttrsOuterStep (attrs : Attrs) (pKeys2 : List String) (r : Rule)
    (k1 : String) : OpResult Rule :=
  iterLoop (removeEdgeAttrsInnerStep k1 attrs) r pKeys2

/-- Transcription of `Rule.remove_edge_attrs` (rules.py lines 508-582). -/
def Rule.remove_edge_attrs (r : Rule) (n1 n2 : String) (attrs : Attrs) : OpResult Rule :=
  if !(edgeAttrsChecks r n1 n2) then .err .ruleError r
  else iterLoop (removeEdgeAttrsOuterStep attrs (keysByValue r.p_lhs n2)) r
    (keysByValue r.p_lhs n1)

/-- Inner loop body of `Rule.update_edge_attrs` (rules.py lines 616-624 and
646-654): assign `p.edge[k1][k2] = None`, then replace the attributes of
the rhs image edge. -/
def updateEdgeAttrsInnerStep (k1 : String) (attrs : Attrs) (r : Rule) (k2 : String) :
    OpResult Rule :=
  let r1 := { r with p := setEdgeAttrsNone r.p k1 k2 }
  match r1.p_rhs.lookup k1, r1.p_rhs.lookup k2 with
  | some rk1, some rk2 => .ok { r1 with rhs := updateEdgeAttrsPrim r1.rhs rk1 rk2 attrs }
  | _, _ => .err .keyError r1

/-- Outer loop body of `Rule.update_edge_attrs`. -/
def updateEdgeAttrsOuterStep (attrs : Attrs) (pKeys2 : List String) (r : Rule)
    (k1 : String) : OpResult Rule :=
  iterLoop (updateEdgeAttrsInnerStep k1 attrs) r pKeys2

/-- Transcription of `Rule.update_edge_attrs` (rules.py lines 584-655). -/
def Rule.update_edge_attrs (r : Rule) (n1 n2 : String) (attrs : Attrs) : OpResult Rule :=
  if !(edgeAttrsChecks r n1 n2) then .err .ruleError r
  else iterLoop (updateEdgeAttrsOuterStep attrs (keysByValue r.p_lhs n2)) r
    (keysByValue r.p_lhs n1)

/-- Modelled from the spec (§4.C, `regraph.category_op.check_homomorphism`
is not under src/): a node map is a homomorphism when it is total on the
source nodes, every source edge has its image edge in the target (in either
orientation when the target is undirected), and node and edge attribute
sets are pointwise included in the attributes at the image. -/
def checkHom (a b : Graph) (h : List (String × String)) : Bool :=
  a.nodes.all (fun x =>
    match h.lookup x.1 with
    | some m => b.hasNode m && subsetAttrs (optAttrs x.2) (optAttrs (b.nodeAttrs m))
    | none => false) &&
  a.edges.all (fun e =>
    match h.lookup e.1, h.lookup e.2.1 with
    | some mu, some mv =>
      (if b.directed then b.edgeMem mu mv else b.edgeMem mu mv || b.edgeMem mv mu) &&
      subsetAttrs (optAttrs e.2.2) (optAttrs (b.edgeAttrs mu mv))
    | _, _ => false)

/-- Modelled from the spec (`regraph.category_op.identity` is not under
src/): the identity node map of a graph, used by the Rule constructor when a
falsy (empty) homomorphism dictionary is passed. -/
def identityMap (p : Graph) : List (String × String) :=
  p.nodes.map (fun x => (x.1, x.1))

/-- Transcription of the Rule constructor `Rule.__init__` (rules.py lines
28-49): a falsy (empty) map is replaced by the identity; otherwise the map
is checked as a homomorphism and raises InvalidHomomorphism when the check
fails; the graphs and maps are deep-copied into the rule. -/
def mkRule (p lhs rhs : Graph) (p_lhs p_rhs : List (String × String)) :
    Except ErrKind Rule :=
  if p_lhs.isEmpty then
    if p_rhs.isEmpty then .ok ⟨p, lhs, rhs, identityMap p, identityMap p⟩
    else if checkHom p rhs p_rhs then .ok ⟨p, lhs, rhs, identityMap p, p_rhs⟩
    else .error .invalidHomomorphism
  else if checkHom p lhs p_lhs then
    if p_rhs.isEmpty then .ok ⟨p, lhs, rhs, p_lhs, identityMap p⟩
    else if checkHom p rhs p_rhs then .ok ⟨p, lhs, rhs, p_lhs, p_rhs⟩
    else .error .invalidHomomorphism
  else .error .invalidHomomorphism

/-- JSON form of a graph (§6 Rule JSON form): the node list with
attributes, the edge list with attributes, and the per-graph directedness
flag of §3 carried through serialization. -/
structure JsonGraph where
  nodes : List (String × Option Attrs)
  edges : List (String × String × Option Attrs)
  directed : Bool
deriving DecidableEq

/-- Modelled from the spec (§6, `regraph.primitives.graph_to_json` is not
under src/): serialize a graph. -/
def graphToJson (g : Graph) : JsonGraph :=
  ⟨g.nodes, g.edges, g.directed⟩

/-- Modelled from the spec (§6, `regraph.primitives.graph_from_json` is not
under src/): rebuild a graph from its JSON form. -/
def graphFromJson (j : JsonGraph) : Graph :=
  ⟨j.nodes, j.edges, j.directed⟩

/-- JSON form of a rule (§6): the three graphs and the two node maps. -/
structure JsonRule where
  lhs : JsonGraph
  p : JsonGraph
  rhs : JsonGraph
  p_lhs : List (String × String)
  p_rhs : List (String × String)
deriving DecidableEq

/-- Transcription of `Rule.to_json` (rules.py lines 671-679). -/
def Rule.to_json (r : Rule) : JsonRule :=
  ⟨graphToJson r.lhs, graphToJson r.p, graphToJson r.rhs, r.p_lhs, r.p_rhs⟩

/-- Transcription of `Rule.from_json` (rules.py lines 681-690): rebuild the
three graphs and run the Rule constructor on them with the two maps. -/
def Rule.from_json (j : JsonRule) : Except ErrKind Rule :=
  mkRule (graphFromJson j.p) (graphFromJson j.lhs) (graphFromJson j.rhs) j.p_lhs j.p_rhs

/-- Modelled from the spec (`regraph.primitives.equal` is not under src/):
two graphs are equal when they have the same set of attributed nodes and
the same set of attributed edges. -/
def equalGraph (a b : Graph) : Bool :=
  a.nodes.all (fun x => b.nodes.contains x) &&
  b.nodes.all (fun x => a.nodes.contains x) &&
  a.edges.all (fun e => b.edges.contains e) &&
  b.edges.all (fun e => a.edges.contains e)

/-- Python dictionary equality. -/
def dictEq (d1 d2 : List (String × String)) : Bool :=
  d1.all (fun kv => d2.lookup kv.1 == some kv.2) &&
  d2.all (fun kv => d1.lookup kv.1 == some kv.2)

/-- Transcription of `Rule.__eq__` (rules.py lines 146-153): graph equality
of p, lhs and rhs, and dictionary equality of the two maps. -/
def ruleEq (r1 r2 : Rule) : Bool :=
  equalGraph r1.p r2.p && equalGraph r1.lhs r2.lhs && equalGraph r1.rhs r2.rhs &&
  dictEq r1.p_lhs r2.p_lhs && dictEq r1.p_rhs r2.p_rhs

/-- Boolean duplicate-freedom of a list of keys. -/
def listNodupB : List String → Bool
  | [] => true
  | x :: xs => !(xs.contains x) && listNodupB xs

/-- Well-formedness of a rule, as Python dictionaries and the constructor
checks guarantee it: p_lhs and p_rhs are valid homomorphisms p → lhs and
p → rhs, their keys are p-nodes without duplicates. -/
def wellFormed (r : Rule) : Bool :=
  checkHom r.p r.lhs r.p_lhs && checkHom r.p r.rhs r.p_rhs &&
  r.p_lhs.all (fun kv => r.p.hasNode kv.1) &&
  r.p_rhs.all (fun kv => r.p.hasNode kv.1) &&
  listNodupB (r.p_lhs.map Prod.fst) && listNodupB (r.p_rhs.map Prod.fst)

/-- The kinds of repair queries run during hierarchy propagation
(`regraph/neo4j/hierarchy.py`): the three upward repairs produced by
propagate_up and the three downward repairs produced by propagate_down. -/
inductive RepairOp where
  | cloneRepair
  | removeNodeRepair
  | removeEdgeRepair
  | mergeRepair
  | addNodeRepair
  | addEdgeRepair
deriving DecidableEq

/-- The repair queries run, in execution order, for one predecessor inside
`Neo4jHierarchy._propagation_up` (hierarchy.py lines 357-366: the
transaction runs q_clone, then q_rm_node, then q_rm_edge). -/
def propagationUpQueries : List RepairOp :=
  [.cloneRepair, .removeNodeRepair, .removeEdgeRepair]

/-- The repair queries run, in execution order, for one successor inside
`Neo4jHierarchy._propagation_down` (hierarchy.py lines 390-400: the
transaction runs q_merge_node, then q_add_node, then q_add_edge). -/
def propagationDownQueries : List RepairOp :=
  [.mergeRepair, .addNodeRepair, .addEdgeRepair]

/-- Sequential execution of repair queries against an abstract store state,
one query at a time, as the driver transaction does. -/
def runRepairQueries {σ : Type} (run : RepairOp → σ → σ) (qs : List RepairOp) (s : σ) : σ :=
  qs.foldl (fun t q => run q t) s

/-- The per-predecessor upward propagation step. -/
def propagationUpStep {σ : Type} (run : RepairOp → σ → σ) (s : σ) : σ :=
  runRepairQueries run propagationUpQueries s

/-- The per-successor downward propagation step. -/
def propagationDownStep {σ : Type} (run : RepairOp → σ → σ) (s : σ) : σ :=
  runRepairQueries run propagationDownQueries s

/-- A node-level typing edge of the Neo4j hierarchy: it links a node of the
source graph to a node of the target graph and may carry the temporary
`tmp` marker set while a typing is being validated. -/
structure TypingEdge where
  srcGraph : String
  tgtGraph : String
  srcNode : String
  tgtNode : String
  tmp : Bool
deriving DecidableEq

/-- Abstract state of the Neo4j hierarchy: the node-level typing edges and
the graph-level hierarchy edges. -/
structure HState where
  typings : List TypingEdge
  hierarchyEdges : List (String × String)
deriving DecidableEq

/-- Whether a typing edge lies between the two given graphs, in either
direction — the rollback query of add_typing matches the undirected Cypher
pattern (:node:source)-[t:typing]-(:node:target). -/
def typingBetween (src tgt : String) (e : TypingEdge) : Bool :=
  (e.srcGraph == src && e.tgtGraph == tgt) || (e.srcGraph == tgt && e.tgtGraph == src)

/-- Insertion of the tentative typing edges (hierarchy.py lines 193-218):
one `typing` edge per mapping pair, each carrying the tmp marker. -/
def insertTmpTypings (s : HState) (src tgt : String)
    (mapping : List (String × String)) : HState :=
  { s with typings := s.typings ++ mapping.map (fun uv => ⟨src, tgt, uv.1, uv.2, true⟩) }

/-- The rollback query of add_typing (hierarchy.py lines 231-236 and
245-251): delete every typing edge between nodes of the source and target
graphs, whether or not it was inserted by this call. -/
def deleteTypingsBetween (s : HState) (src tgt : String) : HState :=
  { s with typings := s.typings.filter (fun e => !(typingBetween src tgt e)) }

/-- The success query of add_typing (hierarchy.py lines 255-271): create
the graph-level hierarchyEdge and clear the tmp marker of the typing edges
between the two graphs. -/
def installTyping (s : HState) (src tgt : String) : HState :=
  { s with
      hierarchyEdges := s.hierarchyEdges ++ [(src, tgt)],
      typings := s.typings.map (fun e =>
        if typingBetween src tgt e then { e with tmp := false } else e) }

/-- Transcription of `Neo4jHierarchy.add_typing` (hierarchy.py lines
161-272).  The two database-side validations (homomorphism check and path
consistency check, in modules not under src/) are abstracted by the boolean
parameters homOk and consOk.  The tentative typing edges are inserted
first; with check=true, a failed homomorphism check rolls back and raises
InvalidHomomorphism, a failed consistency check rolls back and raises the
consistency error; only when both pass (or check=false) is the hierarchy
edge installed. -/
def addTyping (s : HState) (src tgt : String) (mapping : List (String × String))
    (homOk consOk : Bool) (check : Bool) : OpResult HState :=
  let s1 := insertTmpTypings s src tgt mapping
  if check then
    if !homOk then .err .invalidHomomorphism (deleteTypingsBetween s1 src tgt)
    else if !consOk then .err .hierarchyError (deleteTypingsBetween s1 src tgt)
    else .ok (installTyping s1 src tgt)
  else .ok (installTyping s1 src tgt)

/-! Concrete rules and states used to instantiate the theorems below. -/

/-- A graph with the given attribute-free nodes and no edges. -/
def nodesOnly (ids : List String) (dir : Bool) : Graph :=
  ⟨ids.map (fun i => (i, some [])), [], dir⟩

/-- Undirected two-node graph with one edge, for the remove_edge analysis. -/
def gUndirAB : Graph :=
  ⟨[("a", some []), ("b", some [])], [("a", "b", some [])], false⟩

/-- Undirected identity rule on gUndirAB. -/
def ruleUndirAB : Rule :=
  ⟨gUndirAB, gUndirAB, gUndirAB, [("a", "a"), ("b", "b")], [("a", "a"), ("b", "b")]⟩

/-- A rule whose lhs node n has two P-preimages merged onto one rhs node. -/
def ruleMergedPre : Rule :=
  ⟨nodesOnly ["k1", "k2"] true, nodesOnly ["n"] true, nodesOnly ["r"] true,
   [("k1", "n"), ("k2", "n")], [("k1", "r"), ("k2", "r")]⟩

/-- A rule where n1 has two P-preimages with the same rhs image m1 and n2
has a single preimage with image m2. -/
def ruleTwoToOne : Rule :=
  ⟨nodesOnly ["a1", "a2", "b"] true, nodesOnly ["n1", "n2"] true,
   nodesOnly ["m1", "m2"] true,
   [("a1", "n1"), ("a2", "n1"), ("b", "n2")],
   [("a1", "m1"), ("a2", "m1"), ("b", "m2")]⟩

/-- A rule that deletes its lhs node n1 (n1 has no P-preimage). -/
def ruleDeletesN1 : Rule :=
  ⟨nodesOnly ["b"] true, nodesOnly ["n1", "n2"] true, nodesOnly ["m2"] true,
   [("b", "n2")], [("b", "m2")]⟩

/-- A hierarchy state that already holds one (non-temporary) typing edge
between the graphs s and t. -/
def statePriorTyping : HState := ⟨[⟨"s", "t", "u", "v", false⟩], []⟩

/-- A rule whose P-node k is mapped onto the same name x by both p_lhs and
p_rhs while x is not an rhs node: add_node(x) hits the collision branch. -/
def ruleCollide : Rule :=
  ⟨nodesOnly ["k"] true, nodesOnly ["x"] true, nodesOnly ["y"] true,
   [("k", "x")], [("k", "x")]⟩

/-- A small well-formed identity rule. -/
def ruleIdA : Rule :=
  ⟨nodesOnly ["a"] true, nodesOnly ["a"] true, nodesOnly ["a"] true,
   [("a", "a")], [("a", "a")]⟩

/-- The identity rule on a directed two-node edgeless graph. -/
def ruleTwoNodes : Rule :=
  ⟨nodesOnly ["x", "y"] true, nodesOnly ["x", "y"] true, nodesOnly ["x", "y"] true,
   [("x", "x"), ("y", "y")], [("x", "x"), ("y", "y")]⟩

/-- The p_rhs image of a preimage node, as the loop of add_edge reads it. -/
def imgOf (d : List (String × String)) (k : String) : String :=
  (d.lookup k).getD ""

/-- The image pairs processed by add_edge: for every preimage k1 of n1 and
every preimage k2 of n2, the pair of their p_rhs images, in loop order. -/
def pairsOf (d : List (String × String)) (pk1 pk2 : List String) :
    List (String × String) :=
  pk1.flatMap (fun k1 => pk2.map (fun k2 => (imgOf d k1, imgOf d k2)))

/-- The rhs edges created for a list of image pairs with given attributes. -/
def pairEdges (prs : List (String × String)) (attrs : Attrs) :
    List (String × String × Option Attrs) :=
  prs.map (fun pr => (pr.1, pr.2, some attrs))

/-- A graph with extra edges appended. -/
def graphAppendEdges (g : Graph) (es : List (String × String × Option Attrs)) : Graph :=
  { g with edges := g.edges ++ es }

/-! Claim theorems. -/

/-- C4: on an undirected rule, `Rule.remove_edge` checks that the image
edge exists in rhs but then removes the edge only from p — the rhs edge
survives.  On the identity rule over an undirected one-edge graph, the call
returns normally, the p edge is gone, and the rhs edge is still there,
contradicting the claim (and the intent evidenced by the rhs existence
check and the directed branch, which removes both). -/
theorem remove_edge_undirected_keeps_rhs_edge :
    (Rule.remove_edge ruleUndirAB "a" "b").isOk = true ∧
    (Rule.remove_edge ruleUndirAB "a" "b").state.p.edgeMem "a" "b" = false ∧
    (Rule.remove_edge ruleUndirAB "a" "b").state.rhs.edgeMem "a" "b" = true := by
  decide

/-- C5: `Rule.remove_node` on a node with two P-preimages sharing one rhs
image (a merge) crashes with a KeyError on the second preimage: the first
iteration drops every p_rhs entry mapping onto the shared rhs image, and
the second iteration reads the now-missing `p_rhs[k2]`.  The claim's
postcondition fails: a p_lhs key still maps to the removed node. -/
theorem remove_node_merged_preimages_keyerror :
    (match Rule.remove_node ruleMergedPre "n" with
      | .err .keyError _ => true
      | _ => false) = true ∧
    keysByValue (Rule.remove_node ruleMergedPre "n").state.p_lhs "n" ≠ [] := by
  decide

/-- C10: `Rule.remove_node` called on a node with no P-preimage (in
particular on a node that is not in lhs at all) iterates over an empty
preimage list, returns normally and leaves the rule unchanged; no
RuleError is raised. -/
theorem remove_node_no_preimage_noop (r : Rule) (n : String)
    (h : keysByValue r.p_lhs n = []) : Rule.remove_node r n = .ok r := by
  unfold Rule.remove_node
  rw [h]
  rfl

/-- Witness for C10 at a concrete input: the rule deleting n1 has no
preimage of the unknown node zz, and removing zz is a no-op. -/
theorem remove_node_no_preimage_noop_witness :
    keysByValue ruleDeletesN1.p_lhs "zz" = [] ∧
    Rule.remove_node ruleDeletesN1 "zz" = .ok ruleDeletesN1 :=
  ⟨by decide, remove_node_no_preimage_noop ruleDeletesN1 "zz" (by decide)⟩

/-- C7 counterexample: executing the upward propagation step against a
trace-recording store shows that the clone-repair query runs first — not
after the removed-edge and removed-node repairs as the claim states. -/
theorem propagation_up_order_differs :
    propagationUpStep (fun q l => l ++ [q]) ([] : List RepairOp) ≠
      [RepairOp.removeEdgeRepair, RepairOp.removeNodeRepair, RepairOp.cloneRepair] := by
  decide

/-- C7 amended: within one propagation step per graph,
`_propagation_up` applies the clone repair first, then the removed-node
repair, then the removed-edge repair, and `_propagation_down` applies the
merge repair, then the added-node repair, then the added-edge repair. -/
theorem propagation_step_order {σ : Type} (run : RepairOp → σ → σ) (s : σ) :
    propagationUpStep run s =
      run .removeEdgeRepair (run .removeNodeRepair (run .cloneRepair s)) ∧
    propagationDownStep run s =
      run .addEdgeRepair (run .addNodeRepair (run .mergeRepair s)) :=
  ⟨rfl, rfl⟩

/-- C2 counterexample: `Rule.add_edge` raises a RuleError after having
already added an edge to rhs.  With two preimages of n1 sharing the rhs
image m1, the first pair adds the rhs edge (m1, m2) and the second pair
then finds it present and raises — leaving the rule mutated. -/
theorem add_edge_ruleError_mutates :
    (Rule.add_edge ruleTwoToOne "n1" "n2" []).isRuleError = true ∧
    (Rule.add_edge ruleTwoToOne "n1" "n2" []).state ≠ ruleTwoToOne := by
  decide

/-- C3 counterexample: calling `Rule.add_edge` on a deleted lhs node (one
with no P-preimage) does not raise a RuleError — the preimage loop is
empty, so the call returns normally with the rule unchanged. -/
theorem add_edge_deleted_node_noop :
    keysByValue ruleDeletesN1.p_lhs "n1" = [] ∧
    Rule.add_edge ruleDeletesN1 "n1" "n2" [] = .ok ruleDeletesN1 := by
  decide

/-- C8 counterexample: when a typing edge between the two graphs already
exists before the call, the rollback query of add_typing (which deletes
every typing edge between the two graphs) erases it too, so the hierarchy
is not left in its pre-call state. -/
theorem add_typing_rollback_deletes_prior :
    (addTyping statePriorTyping "s" "t" [("u2", "v2")] false true true).isOk = false ∧
    (addTyping statePriorTyping "s" "t" [("u2", "v2")] false true true).state ≠
      statePriorTyping := by
  decide

/-- When no typing edge between the two graphs predates the call, the
rollback query deletes exactly the tentatively inserted edges. -/
lemma rollback_restores (s : HState) (src tgt : String)
    (mapping : List (String × String))
    (h : s.typings.all (fun e => !(typingBetween src tgt e)) = true) :
    deleteTypingsBetween (insertTmpTypings s src tgt mapping) src tgt = s := by
  unfold deleteTypingsBetween insertTmpTypings
  cases s with
  | mk ts hs =>
    simp only [List.filter_append]
    rw [List.all_eq_true] at h
    have h1 : ts.filter (fun e => !(typingBetween src tgt e)) = ts :=
      List.filter_eq_self.mpr h
    have h2 : (mapping.map (fun uv => TypingEdge.mk src tgt uv.1 uv.2 true)).filter
        (fun e => !(typingBetween src tgt e)) = [] := by
      rw [List.filter_eq_nil_iff]
      intro e he
      rw [List.mem_map] at he
      obtain ⟨uv, _, rfl⟩ := he
      simp [typingBetween]
    simp [h1, h2]

/-- C8 amended: with check=true, a failed homomorphism or consistency check
makes add_typing raise after running the rollback query; provided no typing
edge between the two graphs existed before the call, the hierarchy is then
exactly in its pre-call state (in particular no hierarchy edge was
installed); and the call succeeds only when both checks pass, which is the
only path that installs the hierarchy edge. -/
theorem add_typing_rollback :
    (∀ (s : HState) (src tgt : String) (mapping : List (String × String))
        (homOk consOk : Bool),
      s.typings.all (fun e => !(typingBetween src tgt e)) = true →
      (homOk && consOk) = false →
      (addTyping s src tgt mapping homOk consOk true).isOk = false ∧
      (addTyping s src tgt mapping homOk consOk true).state = s) ∧
    (∀ (s : HState) (src tgt : String) (mapping : List (String × String))
        (homOk consOk : Bool),
      (addTyping s src tgt mapping homOk consOk true).isOk = true →
      homOk = true ∧ consOk = true) := by
  constructor
  · intro s src tgt mapping homOk consOk hprior hfail
    cases homOk with
    | false =>
      simp [addTyping, OpResult.isOk, OpResult.state, rollback_restores s src tgt mapping hprior]
    | true =>
      cases consOk with
      | false =>
        simp [addTyping, OpResult.isOk, OpResult.state,
              rollback_restores s src tgt mapping hprior]
      | true => simp at hfail
  · intro s src tgt mapping homOk consOk hok
    cases homOk with
    | false => simp [addTyping, OpResult.isOk] at hok
    | true =>
      cases consOk with
      | false => simp [addTyping, OpResult.isOk] at hok
      | true => exact ⟨rfl, rfl⟩

/-- Witness for C8 at a concrete input: on an empty hierarchy a failed
homomorphism check leaves the state exactly empty again. -/
theorem add_typing_rollback_witness :
    (addTyping ⟨[], []⟩ "s" "t" [("u", "v")] false true true).isOk = false ∧
    (addTyping ⟨[], []⟩ "s" "t" [("u", "v")] false true true).state = ⟨[], []⟩ :=
  add_typing_rollback.1 ⟨[], []⟩ "s" "t" [("u", "v")] false true (by decide) (by decide)

/-- The check loop of add_node reports nothing when every preimage's p_lhs
image differs from the new id. -/
lemma addNodeCheckLoop_eq_none (p_lhs : List (String × String)) (nid : String)
    (ks : List String)
    (h : ∀ k ∈ ks, ∃ v, p_lhs.lookup k = some v ∧ v ≠ nid) :
    addNodeCheckLoop p_lhs nid ks = none := by
  induction ks with
  | nil => rfl
  | cons k ks ih =>
    obtain ⟨v, hv, hne⟩ := h k (List.mem_cons_self k ks)
    have hb : (v == nid) = false := beq_eq_false_iff_ne.mpr hne
    simp only [addNodeCheckLoop, hv, hb, if_false]
    exact ih (fun k hk => h k (List.mem_cons_of_mem _ hk))

/-- The check loop of add_node raises RuleError when some preimage's p_lhs
image equals the new id and no earlier lookup fails. -/
lemma addNodeCheckLoop_eq_ruleError (p_lhs : List (String × String)) (nid : String)
    (ks : List String)
    (htotal : ∀ k ∈ ks, (p_lhs.lookup k).isSome = true)
    (hcol : ∃ k ∈ ks, p_lhs.lookup k = some nid) :
    addNodeCheckLoop p_lhs nid ks = some .ruleError := by
  induction ks with
  | nil => simp at hcol
  | cons k ks ih =>
    obtain ⟨v, hv⟩ := Option.isSome_iff_exists.mp (htotal k (List.mem_cons_self k ks))
    by_cases hvi : v = nid
    · subst hvi
      simp [addNodeCheckLoop, hv]
    · have hb : (v == nid) = false := beq_eq_false_iff_ne.mpr hvi
      simp only [addNodeCheckLoop, hv, hb, if_false]
      apply ih (fun x hx => htotal x (List.mem_cons_of_mem _ hx))
      obtain ⟨k0, hk0, hl0⟩ := hcol
      rcases List.mem_cons.mp hk0 with h0 | h0
      · subst h0
        rw [hv] at hl0
        exact absurd (Option.some.inj hl0) hvi
      · exact ⟨k0, h0, hl0⟩

/-- C6: `Rule.add_node` raises a RuleError when the id already exists in
rhs, and when the id collides with the p_lhs image of a P-node that p_rhs
maps onto the id; in both cases the rule is unchanged at the raise.
Otherwise it adds the node to rhs, leaving p, lhs, p_lhs and p_rhs exactly
as they were. -/
theorem add_node_spec :
    (∀ (r : Rule) (nid : String) (attrs : Attrs),
      r.rhs.hasNode nid = true →
      Rule.add_node r nid attrs = .err .ruleError r) ∧
    (∀ (r : Rule) (nid : String) (attrs : Attrs),
      r.rhs.hasNode nid = false →
      (∀ k ∈ keysByValue r.p_rhs nid, (r.p_lhs.lookup k).isSome = true) →
      (∃ k ∈ keysByValue r.p_rhs nid, r.p_lhs.lookup k = some nid) →
      Rule.add_node r nid attrs = .err .ruleError r) ∧
    (∀ (r : Rule) (nid : String) (attrs : Attrs),
      r.rhs.hasNode nid = false →
      (∀ k ∈ keysByValue r.p_rhs nid, ∃ v, r.p_lhs.lookup k = some v ∧ v ≠ nid) →
      Rule.add_node r nid attrs =
        .ok ⟨r.p, r.lhs, addNodePrim r.rhs nid attrs, r.p_lhs, r.p_rhs⟩) := by
  refine ⟨?_, ?_, ?_⟩
  · intro r nid attrs h
    simp [Rule.add_node, h]
  · intro r nid attrs h htotal hcol
    simp [Rule.add_node, h, addNodeCheckLoop_eq_ruleError r.p_lhs nid _ htotal hcol]
  · intro r nid attrs h hnone
    simp [Rule.add_node, h, addNodeCheckLoop_eq_none r.p_lhs nid _ hnone]

/-- Witness for C6 at concrete inputs: the duplicate-id error, the
lhs-collision error, and a successful addition. -/
theorem add_node_spec_witness :
    Rule.add_node ruleDeletesN1 "m2" [] = .err .ruleError ruleDeletesN1 ∧
    Rule.add_node ruleCollide "x" [] = .err .ruleError ruleCollide ∧
    Rule.add_node ruleDeletesN1 "q" [] =
      .ok ⟨ruleDeletesN1.p, ruleDeletesN1.lhs, addNodePrim ruleDeletesN1.rhs "q" [],
           ruleDeletesN1.p_lhs, ruleDeletesN1.p_rhs⟩ :=
  ⟨add_node_spec.1 ruleDeletesN1 "m2" [] (by decide),
   add_node_spec.2.1 ruleCollide "x" [] (by decide) (by decide)
     ⟨"k", by decide, by decide⟩,
   add_node_spec.2.2 ruleDeletesN1 "q" [] (by decide)
     (by decide)⟩

/-! Preservation of the lhs graph by every edit operation (towards C9). -/

/-- A loop whose step preserves the lhs graph (in normal and raising
iterations alike) preserves the lhs graph. -/
lemma iterLoop_lhs (step : Rule → String → OpResult Rule)
    (h : ∀ r k, ((step r k).state).lhs = r.lhs) :
    ∀ (ks : List String) (r : Rule), ((iterLoop step r ks).state).lhs = r.lhs := by
  intro ks
  induction ks with
  | nil => intro r; rfl
  | cons k ks ih =>
    intro r
    simp only [iterLoop]
    cases hs : step r k with
    | ok r1 =>
      have h1 := h r k
      rw [hs] at h1
      rw [ih r1]
      exact h1
    | err e r1 =>
      have h1 := h r k
      rw [hs] at h1
      exact h1

lemma removeNodeStep_lhs (r : Rule) (k : String) :
    ((removeNodeStep r k).state).lhs = r.lhs := by
  unfold removeNodeStep
  cases hc : r.p.hasNode k <;>
    simp only [Bool.false_eq_true, if_true, if_false, ite_true, ite_false] <;>
    split <;>
    first
      | rfl
      | (split <;> rfl)

lemma addEdgeInnerStep_lhs (k1 : String) (attrs : Attrs) (r : Rule) (k2 : String) :
    ((addEdgeInnerStep k1 attrs r k2).state).lhs = r.lhs := by
  unfold addEdgeInnerStep
  split
  · rfl
  · split
    · split <;> split <;> rfl
    · rfl

lemma removeEdgeInnerStep_lhs (k1 : String) (r : Rule) (k2 : String) :
    ((removeEdgeInnerStep k1 r k2).state).lhs = r.lhs := by
  unfold removeEdgeInnerStep
  split
  · rfl
  · split
    · split <;> split <;> (try split) <;> rfl
    · rfl

lemma cloneNodeStep_lhs (n : String) (r : Rule) (k : String) :
    ((cloneNodeStep n r k).state).lhs = r.lhs := by
  simp only [cloneNodeStep]
  split <;> rfl

lemma addNodeAttrsStep_lhs (attrs : Attrs) (r : Rule) (k : String) :
    ((addNodeAttrsStep attrs r k).state).lhs = r.lhs := by
  simp only [addNodeAttrsStep]
  split <;> rfl

lemma removeNodeAttrsStep_lhs (attrs : Attrs) (r : Rule) (k : String) :
    ((removeNodeAttrsStep attrs r k).state).lhs = r.lhs := by
  simp only [removeNodeAttrsStep]
  split <;> rfl

lemma updateNodeAttrsStep_lhs (attrs : Attrs) (r : Rule) (k : String) :
    ((updateNodeAttrsStep attrs r k).state).lhs = r.lhs := by
  simp only [updateNodeAttrsStep]
  split <;> rfl

lemma addEdgeAttrsInnerStep_lhs (k1 : String) (attrs : Attrs) (r : Rule) (k2 : String) :
    ((addEdgeAttrsInnerStep k1 attrs r k2).state).lhs = r.lhs := by
  simp only [addEdgeAttrsInnerStep]
  split <;> rfl

lemma removeEdgeAttrsInnerStep_lhs (k1 : String) (attrs : Attrs) (r : Rule) (k2 : String) :
    ((removeEdgeAttrsInnerStep k1 attrs r k2).state).lhs = r.lhs := by
  simp only [removeEdgeAttrsInnerStep]
  split <;> rfl

lemma updateEdgeAttrsInnerStep_lhs (k1 : String) (attrs : Attrs) (r : Rule) (k2 : String) :
    ((updateEdgeAttrsInnerStep k1 attrs r k2).state).lhs = r.lhs := by
  simp only [updateEdgeAttrsInnerStep]
  split <;> rfl

lemma addEdgeOuterStep_lhs (attrs : Attrs) (pKeys2 : List String) (r : Rule)
    (k1 : String) : ((addEdgeOuterStep attrs pKeys2 r k1).state).lhs = r.lhs := by
  unfold addEdgeOuterStep
  split
  · rfl
  · exact iterLoop_lhs _ (addEdgeInnerStep_lhs k1 attrs) pKeys2 r

lemma removeEdgeOuterStep_lhs (pKeys2 : List String) (r : Rule) (k1 : String) :
    ((removeEdgeOuterStep pKeys2 r k1).state).lhs = r.lhs := by
  unfold removeEdgeOuterStep
  split
  · rfl
  · exact iterLoop_lhs _ (removeEdgeInnerStep_lhs k1) pKeys2 r

lemma addEdgeAttrsOuterStep_lhs (attrs : Attrs) (pKeys2 : List String) (r : Rule)
    (k1 : String) : ((addEdgeAttrsOuterStep attrs pKeys2 r k1).state).lhs = r.lhs :=
  iterLoop_lhs _ (addEdgeAttrsInnerStep_lhs k1 attrs) pKeys2 r

lemma removeEdgeAttrsOuterStep_lhs (attrs : Attrs) (pKeys2 : List String) (r : Rule)
    (k1 : String) : ((removeEdgeAttrsOuterStep attrs pKeys2 r k1).state).lhs = r.lhs :=
  iterLoop_lhs _ (removeEdgeAttrsInnerStep_lhs k1 attrs) pKeys2 r

lemma updateEdgeAttrsOuterStep_lhs (attrs : Attrs) (pKeys2 : List String) (r : Rule)
    (k1 : String) : ((updateEdgeAttrsOuterStep attrs pKeys2 r k1).state).lhs = r.lhs :=
  iterLoop_lhs _ (updateEdgeAttrsInnerStep_lhs k1 attrs) pKeys2 r

/-- C9: every Rule edit operation leaves the lhs graph unchanged — only p,
rhs, p_lhs and p_rhs are ever mutated — whether the call returns normally
or raises. -/
theorem edits_preserve_lhs :
    (∀ (r : Rule) (nid : String) (attrs : Attrs),
      ((Rule.add_node r nid attrs).state).lhs = r.lhs) ∧
    (∀ (r : Rule) (n : String), ((Rule.remove_node r n).state).lhs = r.lhs) ∧
    (∀ (r : Rule) (n1 n2 : String) (attrs : Attrs),
      ((Rule.add_edge r n1 n2 attrs).state).lhs = r.lhs) ∧
    (∀ (r : Rule) (n1 n2 : String), ((Rule.remove_edge r n1 n2).state).lhs = r.lhs) ∧
    (∀ (r : Rule) (n : String), ((Rule.clone_node r n).state).lhs = r.lhs) ∧
    (∀ (r : Rule) (n1 n2 : String) (nm : Option String),
      ((Rule.merge_nodes r n1 n2 nm).state).lhs = r.lhs) ∧
    (∀ (r : Rule) (n : String) (attrs : Attrs),
      ((Rule.add_node_attrs r n attrs).state).lhs = r.lhs) ∧
    (∀ (r : Rule) (n : String) (attrs : Attrs),
      ((Rule.remove_node_attrs r n attrs).state).lhs = r.lhs) ∧
    (∀ (r : Rule) (n : String) (attrs : Attrs),
      ((Rule.update_node_attrs r n attrs).state).lhs = r.lhs) ∧
    (∀ (r : Rule) (n1 n2 : String) (attrs : Attrs),
      ((Rule.add_edge_attrs r n1 n2 attrs).state).lhs = r.lhs) ∧
    (∀ (r : Rule) (n1 n2 : String) (attrs : Attrs),
      ((Rule.remove_edge_attrs r n1 n2 attrs).state).lhs = r.lhs) ∧
    (∀ (r : Rule) (n1 n2 : String) (attrs : Attrs),
      ((Rule.update_edge_attrs r n1 n2 attrs).state).lhs = r.lhs) := by
  refine ⟨?_, ?_, ?_, ?_, ?_, ?_, ?_, ?_, ?_, ?_, ?_, ?_⟩
  · intro r nid attrs
    unfold Rule.add_node
    split
    · split <;> rfl
    · rfl
  · intro r n
    exact iterLoop_lhs _ removeNodeStep_lhs _ r
  · intro r n1 n2 attrs
    exact iterLoop_lhs _ (addEdgeOuterStep_lhs attrs _) _ r
  · intro r n1 n2
    exact iterLoop_lhs _ (removeEdgeOuterStep_lhs _) _ r
  · intro r n
    exact iterLoop_lhs _ (cloneNodeStep_lhs n) _ r
  · intro r n1 n2 nm
    simp only [Rule.merge_nodes]
    split <;> rfl
  · intro r n attrs
    unfold Rule.add_node_attrs
    split
    · rfl
    · split
      · rfl
      · exact iterLoop_lhs _ (addNodeAttrsStep_lhs attrs) _ r
  · intro r n attrs
    unfold Rule.remove_node_attrs
    split
    · rfl
    · split
      · rfl
      · exact iterLoop_lhs _ (removeNodeAttrsStep_lhs attrs) _ r
  · intro r n attrs
    unfold Rule.update_node_attrs
    split
    · rfl
    · split
      · rfl
      · exact iterLoop_lhs _ (updateNodeAttrsStep_lhs attrs) _ r
  · intro r n1 n2 attrs
    unfold Rule.add_edge_attrs
    split
    · rfl
    · exact iterLoop_lhs _ (addEdgeAttrsOuterStep_lhs attrs _) _ r
  · intro r n1 n2 attrs
    unfold Rule.remove_edge_attrs
    split
    · rfl
    · exact iterLoop_lhs _ (removeEdgeAttrsOuterStep_lhs attrs _) _ r
  · intro r n1 n2 attrs
    unfold Rule.update_edge_attrs
    split
    · rfl
    · exact iterLoop_lhs _ (updateEdgeAttrsOuterStep_lhs attrs _) _ r

/-! RuleErrors and the state they leave behind (towards C2). -/

/-- Reading off the raise-time state from an error equality. -/
lemma err_ruleError_state_eq {k : ErrKind} {s r' : Rule}
    (h : OpResult.err k s = OpResult.err .ruleError r') : r' = s := by
  injection h with h1 h2
  exact h2.symm

/-- A loop whose step never raises RuleError never raises RuleError. -/
lemma iterLoop_no_ruleError (step : Rule → String → OpResult Rule)
    (h : ∀ r k r', step r k ≠ .err .ruleError r') :
    ∀ (ks : List String) (r r' : Rule), iterLoop step r ks ≠ .err .ruleError r' := by
  intro ks
  induction ks with
  | nil =>
    intro r r' hc
    simp [iterLoop] at hc
  | cons k ks ih =>
    intro r r' hc
    simp only [iterLoop] at hc
    cases hs : step r k with
    | ok r1 =>
      rw [hs] at hc
      exact ih r1 r' hc
    | err e r1 =>
      rw [hs] at hc
      injection hc with h1 h2
      subst h1
      exact h r k r1 hs

lemma removeNodeStep_no_ruleError (r : Rule) (k : String) (r' : Rule) :
    removeNodeStep r k ≠ .err .ruleError r' := by
  simp only [removeNodeStep]
  split <;> simp

lemma cloneNodeStep_no_ruleError (n : String) (r : Rule) (k : String) (r' : Rule) :
    cloneNodeStep n r k ≠ .err .ruleError r' := by
  simp only [cloneNodeStep]
  split <;> simp

lemma addNodeAttrsStep_no_ruleError (attrs : Attrs) (r : Rule) (k : String) (r' : Rule) :
    addNodeAttrsStep attrs r k ≠ .err .ruleError r' := by
  simp only [addNodeAttrsStep]
  split <;> simp

lemma removeNodeAttrsStep_no_ruleError (attrs : Attrs) (r : Rule) (k : String)
    (r' : Rule) : removeNodeAttrsStep attrs r k ≠ .err .ruleError r' := by
  simp only [removeNodeAttrsStep]
  split <;> simp

lemma updateNodeAttrsStep_no_ruleError (attrs : Attrs) (r : Rule) (k : String)
    (r' : Rule) : updateNodeAttrsStep attrs r k ≠ .err .ruleError r' := by
  simp only [updateNodeAttrsStep]
  split <;> simp

lemma addEdgeAttrsInnerStep_no_ruleError (k1 : String) (attrs : Attrs) (r : Rule)
    (k2 : String) (r' : Rule) : addEdgeAttrsInnerStep k1 attrs r k2 ≠ .err .ruleError r' := by
  simp only [addEdgeAttrsInnerStep]
  split <;> simp

lemma removeEdgeAttrsInnerStep_no_ruleError (k1 : String) (attrs : Attrs) (r : Rule)
    (k2 : String) (r' : Rule) :
    removeEdgeAttrsInnerStep k1 attrs r k2 ≠ .err .ruleError r' := by
  simp only [removeEdgeAttrsInnerStep]
  split <;> simp

lemma updateEdgeAttrsInnerStep_no_ruleError (k1 : String) (attrs : Attrs) (r : Rule)
    (k2 : String) (r' : Rule) :
    updateEdgeAttrsInnerStep k1 attrs r k2 ≠ .err .ruleError r' := by
  simp only [updateEdgeAttrsInnerStep]
  split <;> simp

lemma addEdgeAttrsOuterStep_no_ruleError (attrs : Attrs) (pKeys2 : List String)
    (r : Rule) (k1 : String) (r' : Rule) :
    addEdgeAttrsOuterStep attrs pKeys2 r k1 ≠ .err .ruleError r' :=
  iterLoop_no_ruleError _ (fun r k => addEdgeAttrsInnerStep_no_ruleError k1 attrs r k)
    pKeys2 r r'

lemma removeEdgeAttrsOuterStep_no_ruleError (attrs : Attrs) (pKeys2 : List String)
    (r : Rule) (k1 : String) (r' : Rule) :
    removeEdgeAttrsOuterStep attrs pKeys2 r k1 ≠ .err .ruleError r' :=
  iterLoop_no_ruleError _ (fun r k => removeEdgeAttrsInnerStep_no_ruleError k1 attrs r k)
    pKeys2 r r'

lemma updateEdgeAttrsOuterStep_no_ruleError (attrs : Attrs) (pKeys2 : List String)
    (r : Rule) (k1 : String) (r' : Rule) :
    updateEdgeAttrsOuterStep attrs pKeys2 r k1 ≠ .err .ruleError r' :=
  iterLoop_no_ruleError _ (fun r k => updateEdgeAttrsInnerStep_no_ruleError k1 attrs r k)
    pKeys2 r r'

/-- C2 amended: a RuleError raised by add_node, remove_node, clone_node,
merge_nodes or any of the six attribute edit operations leaves the rule
exactly as it was before the call (the checks that raise run before any
mutation).  This does not extend to add_edge and remove_edge, whose
existence checks run inside the preimage-pair loop after earlier pairs have
already been processed. -/
theorem edit_ruleError_leaves_rule :
    (∀ (r : Rule) (nid : String) (attrs : Attrs) (r' : Rule),
      Rule.add_node r nid attrs = .err .ruleError r' → r' = r) ∧
    (∀ (r : Rule) (n : String) (r' : Rule),
      Rule.remove_node r n = .err .ruleError r' → r' = r) ∧
    (∀ (r : Rule) (n : String) (r' : Rule),
      Rule.clone_node r n = .err .ruleError r' → r' = r) ∧
    (∀ (r : Rule) (n1 n2 : String) (nm : Option String) (r' : Rule),
      Rule.merge_nodes r n1 n2 nm = .err .ruleError r' → r' = r) ∧
    (∀ (r : Rule) (n : String) (attrs : Attrs) (r' : Rule),
      Rule.add_node_attrs r n attrs = .err .ruleError r' → r' = r) ∧
    (∀ (r : Rule) (n : String) (attrs : Attrs) (r' : Rule),
      Rule.remove_node_attrs r n attrs = .err .ruleError r' → r' = r) ∧
    (∀ (r : Rule) (n : String) (attrs : Attrs) (r' : Rule),
      Rule.update_node_attrs r n attrs = .err .ruleError r' → r' = r) ∧
    (∀ (r : Rule) (n1 n2 : String) (attrs : Attrs) (r' : Rule),
      Rule.add_edge_attrs r n1 n2 attrs = .err .ruleError r' → r' = r) ∧
    (∀ (r : Rule) (n1 n2 : String) (attrs : Attrs) (r' : Rule),
      Rule.remove_edge_attrs r n1 n2 attrs = .err .ruleError r' → r' = r) ∧
    (∀ (r : Rule) (n1 n2 : String) (attrs : Attrs) (r' : Rule),
      Rule.update_edge_attrs r n1 n2 attrs = .err .ruleError r' → r' = r) := by
  refine ⟨?_, ?_, ?_, ?_, ?_, ?_, ?_, ?_, ?_, ?_⟩
  · intro r nid attrs r' h
    simp only [Rule.add_node] at h
    split at h
    · split at h
      · exact err_ruleError_state_eq h
      · simp at h
    · exact err_ruleError_state_eq h
  · intro r n r' h
    exact absurd h (iterLoop_no_ruleError _ removeNodeStep_no_ruleError _ r r')
  · intro r n r' h
    exact absurd h (iterLoop_no_ruleError _ (cloneNodeStep_no_ruleError n) _ r r')
  · intro r n1 n2 nm r' h
    simp only [Rule.merge_nodes] at h
    split at h
    · exact err_ruleError_state_eq h
    · simp at h
  · intro r n attrs r' h
    simp only [Rule.add_node_attrs] at h
    split at h
    · exact err_ruleError_state_eq h
    · split at h
      · exact err_ruleError_state_eq h
      · exact absurd h (iterLoop_no_ruleError _ (addNodeAttrsStep_no_ruleError attrs) _ r r')
  · intro r n attrs r' h
    simp only [Rule.remove_node_attrs] at h
    split at h
    · exact err_ruleError_state_eq h
    · split at h
      · exact err_ruleError_state_eq h
      · exact absurd h
          (iterLoop_no_ruleError _ (removeNodeAttrsStep_no_ruleError attrs) _ r r')
  · intro r n attrs r' h
    simp only [Rule.update_node_attrs] at h
    split at h
    · exact err_ruleError_state_eq h
    · split at h
      · exact err_ruleError_state_eq h
      · exact absurd h
          (iterLoop_no_ruleError _ (updateNodeAttrsStep_no_ruleError attrs) _ r r')
  · intro r n1 n2 attrs r' h
    simp only [Rule.add_edge_attrs] at h
    split at h
    · exact err_ruleError_state_eq h
    · exact absurd h
        (iterLoop_no_ruleError _ (addEdgeAttrsOuterStep_no_ruleError attrs _) _ r r')
  · intro r n1 n2 attrs r' h
    simp only [Rule.remove_edge_attrs] at h
    split at h
    · exact err_ruleError_state_eq h
    · exact absurd h
        (iterLoop_no_ruleError _ (removeEdgeAttrsOuterStep_no_ruleError attrs _) _ r r')
  · intro r n1 n2 attrs r' h
    simp only [Rule.update_edge_attrs] at h
    split at h
    · exact err_ruleError_state_eq h
    · exact absurd h
        (iterLoop_no_ruleError _ (updateEdgeAttrsOuterStep_no_ruleError attrs _) _ r r')

/-- Witness for C2 at a concrete input: add_node on an existing rhs id
raises a RuleError, and the theorem reads back that the state at the raise
is the original rule. -/
theorem edit_ruleError_leaves_rule_witness :
    Rule.add_node ruleDeletesN1 "m2" [] = .err .ruleError ruleDeletesN1 ∧
    ruleDeletesN1 = ruleDeletesN1 :=
  ⟨by decide,
   edit_ruleError_leaves_rule.1 ruleDeletesN1 "m2" [] ruleDeletesN1 (by decide)⟩

/-! JSON round-trip (towards C1). -/

/-- Serialization and deserialization of a graph are mutually inverse. -/
lemma graph_json_roundtrip (g : Graph) : graphFromJson (graphToJson g) = g := rfl

/-- A homomorphism presented by the empty dictionary can only be total on a
graph without nodes. -/
lemma checkHom_nil_nodes (p b : Graph) (h : checkHom p b [] = true) :
    p.nodes = [] := by
  unfold checkHom at h
  rw [Bool.and_eq_true] at h
  have h1 := h.1
  cases hn : p.nodes with
  | nil => rfl
  | cons x xs =>
    rw [hn] at h1
    simp [List.lookup] at h1

/-- A dictionary whose keys are all nodes of a node-less graph is empty. -/
lemma all_hasNode_nil {d : List (String × String)} {g : Graph} (hg : g.nodes = [])
    (h : d.all (fun kv => g.hasNode kv.1) = true) : d = [] := by
  cases d with
  | nil => rfl
  | cons kv tl =>
    exfalso
    rw [List.all_cons, Bool.and_eq_true] at h
    have h1 := h.1
    unfold Graph.hasNode at h1
    rw [hg] at h1
    simp at h1

/-- The identity map of a node-less graph is the empty dictionary. -/
lemma identityMap_nil {p : Graph} (h : p.nodes = []) : identityMap p = [] := by
  unfold identityMap
  rw [h]
  rfl

/-- The constructor accepts a well-formed rule unchanged: the
homomorphism checks pass and the falsy-dictionary branch can only be taken
when the dictionaries are empty anyway. -/
lemma mkRule_of_wellFormed (r : Rule) (h : wellFormed r = true) :
    mkRule r.p r.lhs r.rhs r.p_lhs r.p_rhs = .ok r := by
  unfold wellFormed at h
  simp only [Bool.and_eq_true] at h
  obtain ⟨⟨⟨⟨⟨h1, h2⟩, h3⟩, h4⟩, _⟩, _⟩ := h
  unfold mkRule
  by_cases hpl : r.p_lhs.isEmpty = true
  · have hplnil : r.p_lhs = [] := List.isEmpty_iff.mp hpl
    have hnodes : r.p.nodes = [] := checkHom_nil_nodes r.p r.lhs (hplnil ▸ h1)
    have hprnil : r.p_rhs = [] := all_hasNode_nil hnodes h4
    rw [if_pos hpl, if_pos (by rw [hprnil]; rfl)]
    rw [identityMap_nil hnodes]
    cases r with
    | mk p lhs rhs pl pr =>
      simp only at hplnil hprnil
      rw [hplnil, hprnil]
  · rw [if_neg hpl, if_pos h1]
    by_cases hpr : r.p_rhs.isEmpty = true
    · exfalso
      have hprnil : r.p_rhs = [] := List.isEmpty_iff.mp hpr
      have hnodes : r.p.nodes = [] := checkHom_nil_nodes r.p r.rhs (hprnil ▸ h2)
      have hpln : r.p_lhs = [] := all_hasNode_nil hnodes h3
      exact hpl (by rw [hpln]; rfl)
    · rw [if_neg hpr, if_pos h2]

/-- In a dictionary with duplicate-free keys, looking up the key of any
entry returns that entry's value. -/
lemma lookup_self_of_nodup (d : List (String × String))
    (hnd : listNodupB (d.map Prod.fst) = true) :
    ∀ kv ∈ d, d.lookup kv.1 = some kv.2 := by
  induction d with
  | nil => intro kv hkv; simp at hkv
  | cons hd tl ih =>
    intro kv hkv
    obtain ⟨k0, v0⟩ := hd
    simp only [List.map_cons, listNodupB, Bool.and_eq_true] at hnd
    rcases List.mem_cons.mp hkv with hh | hh
    · subst hh
      simp [List.lookup]
    · have hmem : kv.1 ∈ tl.map Prod.fst := List.mem_map.mpr ⟨kv, hh, rfl⟩
      have hnotc : ((tl.map Prod.fst).contains k0) = false := by
        have h0 := hnd.1
        simpa using h0
      have hne : (kv.1 == k0) = false := by
        apply beq_eq_false_iff_ne.mpr
        intro he
        rw [he] at hmem
        have hcontra : ((tl.map Prod.fst).contains k0) = true := List.elem_iff.mpr hmem
        rw [hnotc] at hcontra
        exact Bool.false_ne_true hcontra
      simp only [List.lookup, hne]
      exact ih hnd.2 kv hh

/-- Python dictionary equality is reflexive on duplicate-free-key
dictionaries. -/
lemma dictEq_refl (d : List (String × String))
    (hnd : listNodupB (d.map Prod.fst) = true) : dictEq d d = true := by
  unfold dictEq
  rw [Bool.and_eq_true]
  constructor <;>
    · rw [List.all_eq_true]
      intro kv hkv
      rw [lookup_self_of_nodup d hnd kv hkv]
      simp

/-- Every element of a list is contained in it. -/
lemma all_contains_self {α : Type} [DecidableEq α] (l : List α) :
    l.all (fun x => l.contains x) = true := by
  rw [List.all_eq_true]
  intro x hx
  exact List.elem_iff.mpr hx

/-- Graph equality is reflexive. -/
lemma equalGraph_refl (g : Graph) : equalGraph g g = true := by
  unfold equalGraph
  simp [all_contains_self]

/-- C1: for every well-formed rule, deserializing its serialization
returns a rule syntactically identical to it (so in particular no
InvalidHomomorphism is raised), and the rule equality of `Rule.__eq__`
holds between the round-tripped rule and the original. -/
theorem rule_json_roundtrip (r : Rule) (h : wellFormed r = true) :
    Rule.from_json (Rule.to_json r) = .ok r ∧ ruleEq r r = true := by
  constructor
  · exact mkRule_of_wellFormed r h
  · unfold wellFormed at h
    simp only [Bool.and_eq_true] at h
    obtain ⟨⟨_, h5⟩, h6⟩ := h
    unfold ruleEq
    simp only [Bool.and_eq_true]
    exact ⟨⟨⟨⟨equalGraph_refl _, equalGraph_refl _⟩, equalGraph_refl _⟩,
           dictEq_refl _ h5⟩, dictEq_refl _ h6⟩

/-- Witness for C1 at a concrete input. -/
theorem rule_json_roundtrip_witness :
    wellFormed ruleIdA = true ∧
    (Rule.from_json (Rule.to_json ruleIdA) = .ok ruleIdA ∧ ruleEq ruleIdA ruleIdA = true) :=
  ⟨by decide, rule_json_roundtrip ruleIdA (by decide)⟩

/-! The add_edge characterisation (towards C3). -/

/-- Adding a fresh edge to a directed graph appends it to the edge list. -/
lemma addEdgePrim_eq (g : Graph) (u v : String) (attrs : Attrs)
    (hdir : g.directed = true) (hfresh : g.edgeMem u v = false) :
    addEdgePrim g u v attrs = graphAppendEdges g [(u, v, some attrs)] := by
  simp [addEdgePrim, graphAppendEdges, hdir, hfresh]

lemma edgeMem_graphAppendEdges (g : Graph) (es : List (String × String × Option Attrs))
    (x y : String) :
    (graphAppendEdges g es).edgeMem x y =
      (g.edgeMem x y || es.any (fun e => e.1 == x && e.2.1 == y)) := by
  simp [Graph.edgeMem, graphAppendEdges, List.any_append]

lemma graphAppendEdges_append (g : Graph)
    (es1 es2 : List (String × String × Option Attrs)) :
    graphAppendEdges (graphAppendEdges g es1) es2 = graphAppendEdges g (es1 ++ es2) := by
  simp [graphAppendEdges, List.append_assoc]

/-- Two different ordered pairs cannot both pass the edge-membership
test. -/
lemma beq_pair_false {u v a b : String} (h : (a, b) ≠ (u, v)) :
    (u == a && v == b) = false := by
  by_cases h1 : u = a
  · by_cases h2 : v = b
    · exact absurd (by rw [h1, h2]) h
    · rw [beq_eq_false_iff_ne.mpr h2, Bool.and_false]
  · rw [beq_eq_false_iff_ne.mpr h1, Bool.false_and]

/-- The body of `addEdgeInnerStep` in the successful case: all checks pass
and the edge is added. -/
lemma addEdgeInnerStep_ok (k1 : String) (attrs : Attrs) (r : Rule) (k2 rk1 rk2 : String)
    (hp : r.p.hasNode k2 = true)
    (hk1 : r.p_rhs.lookup k1 = some rk1)
    (hk2 : r.p_rhs.lookup k2 = some rk2)
    (hdir : r.rhs.directed = true)
    (hfresh : r.rhs.edgeMem rk1 rk2 = false) :
    addEdgeInnerStep k1 attrs r k2 =
      .ok { r with rhs := addEdgePrim r.rhs rk1 rk2 attrs } := by
  simp [addEdgeInnerStep, hp, hk1, hk2, hdir, hfresh]

/-- Exact effect of the inner loop of add_edge for one preimage k1 of n1:
when every remaining preimage of n2 is a p node with a p_rhs image, the
image pairs are pairwise distinct and none of them is already an rhs edge,
the loop appends exactly one rhs edge per pair, in order. -/
lemma addEdgeInner_eq (attrs : Attrs) (k1 rk1 : String) (ks : List String) :
    ∀ r : Rule,
    r.rhs.directed = true →
    r.p_rhs.lookup k1 = some rk1 →
    (∀ k ∈ ks, r.p.hasNode k = true) →
    (∀ k ∈ ks, (r.p_rhs.lookup k).isSome = true) →
    (ks.map (fun k2 => ((rk1, imgOf r.p_rhs k2) : String × String))).Nodup →
    (∀ pr ∈ ks.map (fun k2 => ((rk1, imgOf r.p_rhs k2) : String × String)),
      r.rhs.edgeMem pr.1 pr.2 = false) →
    iterLoop (addEdgeInnerStep k1 attrs) r ks =
      .ok { r with rhs := graphAppendEdges r.rhs (pairEdges (ks.map (fun k2 => (rk1, imgOf r.p_rhs k2))) attrs) } := by
  induction ks with
  | nil =>
    intro r _ _ _ _ _ _
    simp [iterLoop, pairEdges, graphAppendEdges]
  | cons k2 ks ih =>
    intro r hdir hk1 hp hl hnd hfresh
    obtain ⟨rk2, hrk2⟩ := Option.isSome_iff_exists.mp (hl k2 (List.mem_cons_self k2 ks))
    have himg : imgOf r.p_rhs k2 = rk2 := by simp [imgOf, hrk2]
    rw [List.map_cons, himg] at hnd hfresh
    have hfhead : r.rhs.edgeMem rk1 rk2 = false := by
      have hh := hfresh (rk1, rk2) (List.mem_cons_self _ _)
      simpa using hh
    have hnotin : ((rk1, rk2) : String × String) ∉
        ks.map (fun k2 => ((rk1, imgOf r.p_rhs k2) : String × String)) :=
      (List.nodup_cons.mp hnd).1
    have hstep := addEdgeInnerStep_ok k1 attrs r k2 rk1 rk2
      (hp k2 (List.mem_cons_self k2 ks)) hk1 hrk2 hdir hfhead
    rw [addEdgePrim_eq r.rhs rk1 rk2 attrs hdir hfhead] at hstep
    have hfresh1 : ∀ pr ∈ ks.map (fun k2 => ((rk1, imgOf r.p_rhs k2) : String × String)),
        (graphAppendEdges r.rhs [(rk1, rk2, some attrs)]).edgeMem pr.1 pr.2 = false := by
      intro pr hpr
      rw [edgeMem_graphAppendEdges, hfresh pr (List.mem_cons_of_mem _ hpr), Bool.false_or]
      simp only [List.any_cons, List.any_nil, Bool.or_false]
      apply beq_pair_false
      intro he
      have hpe : pr = (rk1, rk2) := by rw [← he]
      rw [hpe] at hpr
      exact hnotin hpr
    simp only [iterLoop, hstep]
    rw [ih { r with rhs := graphAppendEdges r.rhs [(rk1, rk2, some attrs)] }
      hdir hk1
      (fun k hk => hp k (List.mem_cons_of_mem _ hk))
      (fun k hk => hl k (List.mem_cons_of_mem _ hk))
      ((List.nodup_cons.mp hnd).2)
      hfresh1]
    rw [List.map_cons, himg]
    simp only [pairEdges, List.map_cons, graphAppendEdges_append, List.singleton_append]

/-- The inner loop seen through the outer step: the p-membership check of
k1 passes and the inner loop runs. -/
lemma addEdgeOuterStep_eq (attrs : Attrs) (pk2 : List String) (r : Rule) (k1 : String)
    (hp1 : r.p.hasNode k1 = true) :
    addEdgeOuterStep attrs pk2 r k1 = iterLoop (addEdgeInnerStep k1 attrs) r pk2 := by
  simp [addEdgeOuterStep, hp1]

/-- No image pair of a list of preimage pairs is an rhs edge, expressed for
the flattened pair list. -/
lemma any_pair_not_mem (prs : List (String × String)) (x y : String)
    (h : ((x, y) : String × String) ∉ prs) :
    prs.any (fun pr => pr.1 == x && pr.2 == y) = false := by
  rw [List.any_eq_false]
  intro pr hpr hp
  apply h
  rw [Bool.and_eq_true, beq_iff_eq, beq_iff_eq] at hp
  obtain ⟨h1, h2⟩ := hp
  rw [← h1, ← h2]
  exact hpr

/-- Membership test of created pair edges reduces to the pair list. -/
lemma pairEdges_any (prs : List (String × String)) (attrs : Attrs) (x y : String) :
    (pairEdges prs attrs).any (fun e => e.1 == x && e.2.1 == y) =
      prs.any (fun pr => pr.1 == x && pr.2 == y) := by
  induction prs with
  | nil => rfl
  | cons pr tl ih => simp [pairEdges, List.any_cons] at ih ⊢; rw [ih]

/-- Exact effect of the whole add_edge loop: under the same conditions,
one rhs edge is appended per image pair of preimages of n1 and n2, in loop
order. -/
lemma addEdgeOuter_eq (attrs : Attrs) (pk2 : List String) (ks1 : List String) :
    ∀ r : Rule,
    r.rhs.directed = true →
    (∀ k ∈ ks1, r.p.hasNode k = true) →
    (∀ k ∈ pk2, r.p.hasNode k = true) →
    (∀ k ∈ ks1, (r.p_rhs.lookup k).isSome = true) →
    (∀ k ∈ pk2, (r.p_rhs.lookup k).isSome = true) →
    (pairsOf r.p_rhs ks1 pk2).Nodup →
    (∀ pr ∈ pairsOf r.p_rhs ks1 pk2, r.rhs.edgeMem pr.1 pr.2 = false) →
    iterLoop (addEdgeOuterStep attrs pk2) r ks1 =
      .ok { r with rhs := graphAppendEdges r.rhs (pairEdges (pairsOf r.p_rhs ks1 pk2) attrs) } := by
  induction ks1 with
  | nil =>
    intro r _ _ _ _ _ _ _
    simp [iterLoop, pairsOf, pairEdges, graphAppendEdges]
  | cons k1 ks ih =>
    intro r hdir hp1 hp2 hl1 hl2 hnd hfresh
    obtain ⟨rk1, hrk1⟩ := Option.isSome_iff_exists.mp (hl1 k1 (List.mem_cons_self k1 ks))
    have himg : imgOf r.p_rhs k1 = rk1 := by simp [imgOf, hrk1]
    have hsplit : pairsOf r.p_rhs (k1 :: ks) pk2 =
        pk2.map (fun k2 => ((rk1, imgOf r.p_rhs k2) : String × String)) ++
          pairsOf r.p_rhs ks pk2 := by
      simp only [pairsOf, List.flatMap_cons, himg]
    rw [hsplit] at hnd hfresh
    obtain ⟨hnd1, hnd2, hdisj⟩ := List.nodup_append.mp hnd
    have hfresh1 : ∀ pr ∈ pairsOf r.p_rhs ks pk2,
        (graphAppendEdges r.rhs
          (pairEdges (pk2.map (fun k2 => (rk1, imgOf r.p_rhs k2))) attrs)).edgeMem
            pr.1 pr.2 = false := by
      intro pr hpr
      rw [edgeMem_graphAppendEdges]
      rw [hfresh pr (List.mem_append_right _ hpr), Bool.false_or]
      rw [pairEdges_any]
      exact any_pair_not_mem _ pr.1 pr.2 (fun hmem => hdisj hmem hpr)
    simp only [iterLoop,
      addEdgeOuterStep_eq attrs pk2 r k1 (hp1 k1 (List.mem_cons_self k1 ks)),
      addEdgeInner_eq attrs k1 rk1 pk2 r hdir hrk1 hp2 hl2 hnd1
        (fun pr hpr => hfresh pr (List.mem_append_left _ hpr))]
    rw [ih { r with rhs := graphAppendEdges r.rhs (pairEdges (pk2.map (fun k2 => (rk1, imgOf r.p_rhs k2))) attrs) }
      hdir
      (fun k hk => hp1 k (List.mem_cons_of_mem _ hk))
      hp2
      (fun k hk => hl1 k (List.mem_cons_of_mem _ hk))
      hl2
      hnd2
      hfresh1]
    rw [hsplit]
    simp only [pairEdges, graphAppendEdges_append, List.map_append]

/-- C3 amended: when u_L or v_L is being deleted by the rule (has no
P-preimage under p_lhs), `Rule.add_edge` returns without error and leaves
the rule unchanged — it does not fail.  Otherwise (stated for a directed
rhs, with every preimage present in p and carrying a p_rhs image, the image
pairs pairwise distinct and none already an rhs edge) it adds one rhs edge
per pair (p_rhs(k1), p_rhs(k2)) of images of P-preimages of u_L and v_L. -/
theorem add_edge_spec :
    (∀ (r : Rule) (n1 n2 : String) (attrs : Attrs),
      keysByValue r.p_lhs n1 = [] →
      Rule.add_edge r n1 n2 attrs = .ok r) ∧
    (∀ (r : Rule) (n1 n2 : String) (attrs : Attrs),
      r.rhs.directed = true →
      (∀ k ∈ keysByValue r.p_lhs n1, r.p.hasNode k = true) →
      (∀ k ∈ keysByValue r.p_lhs n2, r.p.hasNode k = true) →
      (∀ k ∈ keysByValue r.p_lhs n1, (r.p_rhs.lookup k).isSome = true) →
      (∀ k ∈ keysByValue r.p_lhs n2, (r.p_rhs.lookup k).isSome = true) →
      (pairsOf r.p_rhs (keysByValue r.p_lhs n1) (keysByValue r.p_lhs n2)).Nodup →
      (∀ pr ∈ pairsOf r.p_rhs (keysByValue r.p_lhs n1) (keysByValue r.p_lhs n2),
        r.rhs.edgeMem pr.1 pr.2 = false) →
      Rule.add_edge r n1 n2 attrs =
        .ok { r with rhs := graphAppendEdges r.rhs (pairEdges (pairsOf r.p_rhs (keysByValue r.p_lhs n1) (keysByValue r.p_lhs n2)) attrs) }) := by
  constructor
  · intro r n1 n2 attrs h
    unfold Rule.add_edge
    rw [h]
    rfl
  · intro r n1 n2 attrs hdir hp1 hp2 hl1 hl2 hnd hfresh
    exact addEdgeOuter_eq attrs _ _ r hdir hp1 hp2 hl1 hl2 hnd hfresh

/-- Witness for C3 at concrete inputs: the silent no-op on a deleted node,
and a successful addition on the identity rule over two nodes. -/
theorem add_edge_spec_witness :
    (keysByValue ruleDeletesN1.p_lhs "n1" = [] ∧
      Rule.add_edge ruleDeletesN1 "n1" "n2" [] = .ok ruleDeletesN1) ∧
    Rule.add_edge ruleTwoNodes "x" "y" [] =
      .ok { ruleTwoNodes with rhs := graphAppendEdges ruleTwoNodes.rhs (pairEdges (pairsOf ruleTwoNodes.p_rhs (keysByValue ruleTwoNodes.p_lhs "x") (keysByValue ruleTwoNodes.p_lhs "y")) []) } :=
  ⟨⟨by decide, add_edge_spec.1 ruleDeletesN1 "n1" "n2" [] (by decide)⟩,
   add_edge_spec.2 ruleTwoNodes "x" "y" [] (by decide) (by decide) (by decide)
     (by decide) (by decide) (by decide) (by decide)⟩

end ReGraph
